import Mathlib

/-!
# embd: DS18B20 sensor protocol, Raspberry Pi PWM channel and 1-Wire bus registry

A shallow embedding of three source files:

* `sensor/ds18b20/ds18b20.go`  (namespace `Embd.DS18B20`)
* `host/rpi/pwmpin.go`         (namespace `Embd.Rpi`, PWM part)
* `host/rpi/onewirebus.go`     (namespace `Embd.Rpi`, 1-Wire part)

Conventions.

* A Go `byte` is `Fin 256`; a Go `int16` is an `Int` kept in `[-32768, 32767]` by an
  explicit wrap; a Go `int` is an `Int` (the only arithmetic done on `int` in the
  modelled code is a division by 10 and comparisons, which cannot overflow).
* Go's `/` on integers truncates toward zero: `Int.tdiv`.
* Pointer receivers become explicit state passing; everything outside the process
  (the 1-Wire device, the sysfs pseudo-files, the GPIO driver) is an explicit
  component of the state, with failures driven by data in that state.
* Mutexes are omitted: every function is modelled as one atomic step.
-/

namespace Embd

/-- Go `byte`. -/
abbrev Byte := Fin 256

namespace DS18B20

/-! ## `sensor/ds18b20/ds18b20.go` -/

/-- The table `ds18b20_crc_data` (`ds18b20.go`, lines 18-35). -/
def ds18b20_crc_data : List Byte := [
  0, 94, 188, 226, 97, 63, 221, 131, 194, 156, 126, 32, 163, 253, 31, 65,
  157, 195, 33, 127, 252, 162, 64, 30, 95, 1, 227, 189, 62, 96, 130, 220,
  35, 125, 159, 193, 66, 28, 254, 160, 225, 191, 93, 3, 128, 222, 60, 98,
  190, 224, 2, 92, 223, 129, 99, 61, 124, 34, 192, 158, 29, 67, 161, 255,
  70, 24, 250, 164, 39, 121, 155, 197, 132, 218, 56, 102, 229, 187, 89, 7,
  219, 133, 103, 57, 186, 228, 6, 88, 25, 71, 165, 251, 120, 38, 196, 154,
  101, 59, 217, 135, 4, 90, 184, 230, 167, 249, 27, 69, 198, 152, 122, 36,
  248, 166, 68, 26, 153, 199, 37, 123, 58, 100, 134, 216, 91, 5, 231, 185,
  140, 210, 48, 110, 237, 179, 81, 15, 78, 16, 242, 172, 47, 113, 147, 205,
  17, 79, 173, 243, 112, 46, 204, 146, 211, 141, 111, 49, 178, 236, 14, 80,
  175, 241, 19, 77, 206, 144, 114, 44, 109, 51, 209, 143, 12, 82, 176, 238,
  50, 108, 142, 208, 83, 13, 239, 177, 240, 174, 76, 18, 145, 207, 45, 115,
  202, 148, 118, 40, 171, 245, 23, 73, 8, 86, 180, 234, 105, 55, 213, 139,
  87, 9, 235, 181, 54, 104, 138, 212, 149, 203, 41, 119, 244, 170, 72, 22,
  233, 183, 85, 11, 136, 214, 52, 106, 43, 117, 151, 201, 74, 20, 246, 168,
  116, 42, 200, 150, 21, 75, 169, 247, 182, 232, 10, 84, 215, 137, 107, 53]

/-- Indexing `ds18b20_crc_data[i]` with a `byte` index; the table has 256 entries, so the
default of `getD` is never used (`ds18b20_crc_data_length`). -/
def tableAt (i : Byte) : Byte := ds18b20_crc_data.getD i.val 0

/-- The function `ds18b20_crc` (`ds18b20.go`, lines 49-56):

```go
var crc byte = 0
var x byte
for _, x := range data {
    crc = ds18b20_crc_data[crc ^ x]
}
return x
```

The `x` of the `range` clause is a new variable scoped to the loop; the `x` that is
returned is the outer one, which is never assigned and keeps its zero value.  The loop
result `crc` is computed and dropped. -/
def ds18b20_crc (data : List Byte) : Byte :=
  let crc : Byte := 0
  let x : Byte := 0
  let _crc : Byte := data.foldl (fun crc x => tableAt (crc ^^^ x)) crc
  x

/-- The CRC as the specification words it: start with `crc = 0` and, for each byte `b`
of the data in order, set `crc := ds18b20_crc_data[crc XOR b]`; the result is `crc`. -/
def specTableCrc (data : List Byte) : Byte :=
  data.foldl (fun crc b => tableAt (crc ^^^ b)) 0

/-- Errors seen by `ReadTemperature`: the one it creates itself
(`errors.New("CRC error")`) and those handed up unchanged from the device. -/
inductive Error where
  | crc
  | device (code : Nat)
  deriving DecidableEq, Repr

/-- The part of the interface `embd.W1Device` that `ReadTemperature` calls, as
transition functions on an arbitrary device state `σ`.  Any behaviour of a device,
including one that depends on the whole history of calls, is an instance. -/
structure W1Device (σ : Type) where
  ReadByte : σ → (Byte × Option Error) × σ
  WriteByte : Byte → σ → Option Error × σ
  ReadBytes : Nat → σ → (List Byte × Option Error) × σ

/-- The struct `DS18B20` (lines 37-42); `Device` is passed alongside, `mu` is omitted. -/
structure Sensor where
  Raw : Int
  deriving DecidableEq, Repr

/-- How a Go call ends: it returns its `error` result, or it panics at run time. -/
inductive Outcome where
  | returned (err : Option Error)
  | panicked
  deriving DecidableEq, Repr

/-- Conversion of an integer to `int16`: reduction modulo `2^16` into
`[-32768, 32767]`. -/
def wrapInt16 (x : Int) : Int := (x + 32768) % 65536 - 32768

/-- The `int16` operation `x &^ m` (AND NOT) for a mask `0 ≤ m < 2^16`, computed on the
16-bit two's-complement pattern of `x`. -/
def andNotInt16 (x : Int) (m : Nat) : Int :=
  wrapInt16 (Int.ofNat ((x % 65536).toNat &&& (65535 ^^^ m)))

/-- The polling loop of line 70:
`for ret, err = ReadByte(); ret == 0 && err == nil; ret, err = ReadByte() {}`.
The loop has no bound in the source; `fuel` bounds the number of `ReadByte` calls and
`none` means the bound was reached with the loop still running. -/
def pollLoop {σ : Type} (dev : W1Device σ) : Nat → σ → Option ((Byte × Option Error) × σ)
  | 0, _ => none
  | fuel + 1, s =>
    match dev.ReadByte s with
    | ((ret, err), s1) =>
      if ret = 0 ∧ err = none then pollLoop dev fuel s1 else some ((ret, err), s1)

/-- Lines 88-109 of `ReadTemperature`: what happens to the sensor once `ReadBytes(9)`
has returned the slice `res` without error.  `res[:8]` and `res[8]` panic on a slice
shorter than 9 bytes (the panic is at `res[8]` at the latest), before any assignment. -/
def decodeScratchpad (sensor : Sensor) (res : List Byte) : Outcome × Sensor :=
  if res.length < 9 then (.panicked, sensor) else
  let crc := ds18b20_crc (res.take 8)
  if crc ≠ res.getD 8 0 then (.returned (some .crc), sensor) else
  let raw := wrapInt16 (wrapInt16 ((res.getD 1 0).val * 256) + (res.getD 0 0).val)
  let cfg : Byte := res.getD 4 0 &&& 0x60
  let raw :=
    if cfg = 0x00 then andNotInt16 raw 7
    else if cfg = 0x20 then andNotInt16 raw 3
    else if cfg = 0x40 then andNotInt16 raw 1
    else raw
  (.returned none, { sensor with Raw := raw })

/-- The method `(*DS18B20).ReadTemperature` (lines 58-110).  `none` only when the polling
loop used up `fuel`. -/
def ReadTemperature {σ : Type} (dev : W1Device σ) (fuel : Nat) (sensor : Sensor) (s : σ) :
    Option (Outcome × Sensor × σ) :=
  match dev.WriteByte 0x44 s with
  | (some err, s1) => some (.returned (some err), sensor, s1)
  | (none, s1) =>
    match pollLoop dev fuel s1 with
    | none => none
    | some ((_, some err), s2) => some (.returned (some err), sensor, s2)
    | some ((_, none), s2) =>
      match dev.WriteByte 0xBE s2 with
      | (some err, s3) => some (.returned (some err), sensor, s3)
      | (none, s3) =>
        match dev.ReadBytes 9 s3 with
        | ((_, some err), s4) => some (.returned (some err), sensor, s4)
        | ((res, none), s4) =>
          let r := decodeScratchpad sensor res
          some (r.1, r.2, s4)

/-- A test device: every write succeeds, the first `busy` polls answer 0 (conversion in
progress) and later polls answer 1, and `ReadBytes` hands back the scratchpad `pad`
whatever count is asked for.  The state counts the `ReadByte` calls made so far. -/
def padDevice (busy : Nat) (pad : List Byte) : W1Device Nat where
  ReadByte := fun s => ((if s < busy then 0 else 1, none), s + 1)
  WriteByte := fun _ s => (none, s)
  ReadBytes := fun _ s => ((pad, none), s)

/-- A test device whose every operation fails with device error `code`. -/
def deadDevice (code : Nat) : W1Device Unit where
  ReadByte := fun s => ((0, some (.device code)), s)
  WriteByte := fun _ s => (some (.device code), s)
  ReadBytes := fun _ s => (([], some (.device code)), s)

/-- The power-on scratchpad of a DS18B20 (85 °C), with its correct CRC `0x1C` as byte 8. -/
def referencePad : List Byte := [0x50, 0x05, 0x4B, 0x46, 0x7F, 0xFF, 0x0C, 0x10, 0x1C]

/-- The scratchpad of `referencePad` with byte 8 overwritten by 0: its CRC byte is wrong. -/
def tamperedPad : List Byte := [0x50, 0x05, 0x4B, 0x46, 0x7F, 0xFF, 0x0C, 0x10, 0x00]

/-- In the specification's words: the signed 16-bit little-endian value of bytes 0 and 1,
`byte1*256 + byte0` computed in 16-bit two's-complement arithmetic. -/
def specRaw16 (byte0 byte1 : Byte) : Int :=
  wrapInt16 (byte1.val * 256 + byte0.val)

/-- In the specification's words: how many low bits are cleared, by bits 5-6 of byte 4
(`0x00` clears 3, `0x20` clears 2, `0x40` clears 1, `0x60` clears none). -/
def specClearedBits (byte4 : Byte) : Nat :=
  if byte4 &&& 0x60 = 0x00 then 3
  else if byte4 &&& 0x60 = 0x20 then 2
  else if byte4 &&& 0x60 = 0x40 then 1
  else 0

/-- A signed value with its low `k` bits cleared: in two's complement that is the value
rounded down to a multiple of `2^k`. -/
def specClearLow (k : Nat) (v : Int) : Int := v - v % 2 ^ k

end DS18B20

namespace Rpi

/-! ## `host/rpi/pwmpin.go` -/

/-- Constant `PWMDefaultDuty` (line 18). -/
def PWMDefaultDuty : Int := 500000000

/-- Constant `PWMDefaultPeriod` (line 20). -/
def PWMDefaultPeriod : Int := 1000000000

/-- Constant `PWMMinPulseWidth` (line 22). -/
def PWMMinPulseWidth : Int := 1090

/-- Constant `PWMMaxPulseWidth` (line 23). -/
def PWMMaxPulseWidth : Int := 1000000000

/-- The four pseudo-files of one channel directory `/sys/class/pwm/pwmchip0/pwm<N>/`,
by the names used in `init` (lines 81-86). -/
inductive PwmFile where
  | enable
  | duty_cycle
  | period
  | polarity
  deriving DecidableEq, Repr

/-- The text handed to `WriteString`, kept structured so that the number in it can be
read back: a literal, `strconv.Itoa(n)`, or `fmt.Sprintf("%d\n", n)`. -/
inductive Payload where
  | lit (s : String)
  | itoa (n : Int)
  | decLn (n : Int)
  deriving DecidableEq, Repr

/-- The characters a payload stands for. -/
def Payload.render : Payload → String
  | .lit s => s
  | .itoa n => toString n
  | .decLn n => toString n ++ "\n"

/-- The number a payload carries, if it is one of the two numeric forms. -/
def Payload.number? : Payload → Option Int
  | .lit _ => none
  | .itoa n => some n
  | .decLn n => some n

/-- What the process does to the outside world, in the order it happens. -/
inductive Event where
  | opened (f : PwmFile)
  | wrote (f : PwmFile) (p : Payload)
  | closed (f : PwmFile)
  | unregistered (n : String)
  deriving DecidableEq, Repr

/-- The outside world of one PWM channel.  `faults` scripts the outcome of the coming
fallible operations (each `os.OpenFile`, each `WriteString` on a non-nil file, each
`drv.Unregister`), one entry per operation, `true` meaning that the operation fails;
once the script is used up every operation succeeds.  `events` is the history. -/
structure World where
  faults : List Bool
  events : List Event
  deriving DecidableEq, Repr

/-- The errors of `pwmpin.go`, by origin. -/
inductive Error where
  /-- Line 90: `unable to open necessary pwm files: ...`. -/
  | openFailed
  /-- Line 114: `pwm period for ... is out of bounds, must be in [..]`. -/
  | periodOutOfBounds
  /-- Line 135: `pwm duty ... is greater than the period, ...`. -/
  | dutyGreaterThanPeriod
  /-- Line 138: `pwm duty ... is out of bounds (must be positive)`. -/
  | dutyNegative
  /-- Line 151: `not supported (yet.  too lazy)`. -/
  | notSupported
  /-- The error of a `WriteString` that the operating system refused. -/
  | writeFailed
  /-- The error `os.ErrInvalid` of a `WriteString` on a nil `*os.File`. -/
  | invalidFile
  /-- The error returned by `drv.Unregister`. -/
  | unregisterFailed
  deriving DecidableEq, Repr

/-- The struct `pwmPin` (lines 26-46).  `drv` is part of the world.  `polarity` has the
Go type `embd.Polarity`, an `int`.  A file field holds nil or the pseudo-file that was
opened into it. -/
structure pwmPin where
  n : String
  pwmChannel : Int
  duty : Int
  period : Int
  polarity : Int
  enablef : Option PwmFile
  dutyf : Option PwmFile
  periodf : Option PwmFile
  polarityf : Option PwmFile
  initialized : Bool
  deriving DecidableEq, Repr

/-- The function `newPWMPin` (lines 48-59), on the two fields of the pin descriptor it
reads; `none` is the panic for a pin without PWM.  All other fields are zero values. -/
def newPWMPin (ID : String) (DigitalLogical : Int) : Option pwmPin :=
  let mk (pwmChannel : Int) : pwmPin :=
    { n := ID, pwmChannel := pwmChannel, duty := 0, period := 0, polarity := 0,
      enablef := none, dutyf := none, periodf := none, polarityf := none,
      initialized := false }
  if DigitalLogical = 12 then some (mk 0)
  else if DigitalLogical = 13 then some (mk 1)
  else none

/-- Take the next scripted outcome. -/
def World.next (w : World) : Bool × World :=
  match w.faults with
  | [] => (false, w)
  | b :: rest => (b, { w with faults := rest })

/-- Append an event to the history. -/
def World.emit (w : World) (e : Event) : World :=
  { w with events := w.events ++ [e] }

/-- The call `os.OpenFile(base+name, os.O_WRONLY, os.ModeExclusive)`. -/
def OpenFile (name : PwmFile) (w : World) : Option PwmFile × World :=
  match w.next with
  | (true, w1) => (none, w1)
  | (false, w1) => (some name, w1.emit (.opened name))

/-- The call `f.WriteString(text)`, of which the source only uses the error. -/
def WriteString (f : Option PwmFile) (text : Payload) (w : World) : Option Error × World :=
  match f with
  | none => (some .invalidFile, w)
  | some name =>
    match w.next with
    | (true, w1) => (some .writeFailed, w1)
    | (false, w1) => (none, w1.emit (.wrote name text))

/-- The call `f.Close()`, whose result the source ignores. -/
def CloseFile (f : PwmFile) (w : World) : World :=
  w.emit (.closed f)

/-- The call `p.drv.Unregister(p.n)`. -/
def Unregister (n : String) (w : World) : Option Error × World :=
  match w.next with
  | (true, w1) => (some .unregisterFailed, w1)
  | (false, w1) => (none, w1.emit (.unregistered n))

/-- The method `reset` (lines 186-204).  It changes no field of the pin. -/
def pwmPin.reset (p : pwmPin) (enable : Bool) (w : World) : Option Error × World :=
  match WriteString p.polarityf (.lit "normal\n") w with
  | (some err, w1) => (some err, w1)
  | (none, w1) =>
    match WriteString p.periodf (.decLn (PWMDefaultPeriod.tdiv 10)) w1 with
    | (some err, w2) => (some err, w2)
    | (none, w2) =>
      match WriteString p.dutyf (.decLn (PWMDefaultDuty.tdiv 10)) w2 with
      | (some err, w3) => (some err, w3)
      | (none, w3) =>
        let enableStr := if enable then "1\n" else "0\n"
        match WriteString p.enablef (.lit enableStr) w3 with
        | (some err, w4) => (some err, w4)
        | (none, w4) => (none, w4)

/-- The `pairings` of `init` (lines 81-86): the file names in the order they are opened. -/
def pairings : List PwmFile := [.enable, .duty_cycle, .period, .polarity]

/-- The assignment `*pair.file = f` of line 92. -/
def pwmPin.setFile (p : pwmPin) (name : PwmFile) (f : Option PwmFile) : pwmPin :=
  match name with
  | .enable => { p with enablef := f }
  | .duty_cycle => { p with dutyf := f }
  | .period => { p with periodf := f }
  | .polarity => { p with polarityf := f }

/-- The loop of `init` (lines 87-98).  `deferred` are the files whose deferred close has
been registered so far, the latest first (the order in which deferred calls run). -/
def openLoop : List PwmFile → pwmPin → List PwmFile → World →
    Option Error × pwmPin × List PwmFile × World
  | [], p, deferred, w => (none, p, deferred, w)
  | name :: rest, p, deferred, w =>
    match OpenFile name w with
    | (none, w1) => (some .openFailed, p, deferred, w1)
    | (some f, w1) => openLoop rest (p.setFile name (some f)) (f :: deferred) w1

/-- The deferred functions of `init` (lines 93-97) when it returns with
`p.initialized` false: each closes its file. -/
def runDeferred (deferred : List PwmFile) (w : World) : World :=
  deferred.foldl (fun w f => CloseFile f w) w

/-- The method `init` (lines 69-105). -/
def pwmPin.init (p : pwmPin) (w : World) : Option Error × pwmPin × World :=
  if p.initialized then (none, p, w) else
  match openLoop pairings p [] w with
  | (some err, p1, deferred, w1) => (some err, p1, runDeferred deferred w1)
  | (none, p1, deferred, w1) =>
    match p1.reset true w1 with
    | (some err, w2) => (some err, p1, runDeferred deferred w2)
    | (none, w2) => (none, { p1 with initialized := true }, w2)

/-- The method `SetPeriod` (lines 107-126). -/
def pwmPin.SetPeriod (p : pwmPin) (ns : Int) (w : World) : Option Error × pwmPin × World :=
  let ns := ns.tdiv 10
  match p.init w with
  | (some err, p1, w1) => (some err, p1, w1)
  | (none, p1, w1) =>
    if ns < PWMMinPulseWidth ∨ ns > PWMMaxPulseWidth then
      (some .periodOutOfBounds, p1, w1)
    else
      match WriteString p1.periodf (.itoa ns) w1 with
      | (some err, w2) => (some err, p1, w2)
      | (none, w2) => (none, { p1 with period := ns }, w2)

/-- The method `SetDuty` (lines 128-148).  No field of the pin is assigned. -/
def pwmPin.SetDuty (p : pwmPin) (ns : Int) (w : World) : Option Error × pwmPin × World :=
  let ns := ns.tdiv 10
  match p.init w with
  | (some err, p1, w1) => (some err, p1, w1)
  | (none, p1, w1) =>
    if ns > p1.period then (some .dutyGreaterThanPeriod, p1, w1)
    else if ns < 0 then (some .dutyNegative, p1, w1)
    else
      match WriteString p1.dutyf (.itoa ns) w1 with
      | (some err, w2) => (some err, p1, w2)
      | (none, w2) => (none, p1, w2)

/-- The method `SetMicroseconds` (lines 150-164). -/
def pwmPin.SetMicroseconds (p : pwmPin) (_us : Int) (w : World) :
    Option Error × pwmPin × World :=
  (some .notSupported, p, w)

/-- Modelled from the spec: the helper `util.Map` of package `util`, which is not among
the source files; the specification gives it as
`Map(x, inmin, inmax, outmin, outmax) = (x-inmin)*(outmax-outmin)/(inmax-inmin)+outmin`
on `int64`, with Go's truncating division.  For `0 ≤ x ≤ 255` and a period that
`SetPeriod` accepts the product is below `2^63`, so no reduction modulo `2^64` occurs. -/
def utilMap (x inmin inmax outmin outmax : Int) : Int :=
  ((x - inmin) * (outmax - outmin)).tdiv (inmax - inmin) + outmin

/-- The method `SetAnalog` (lines 166-169). -/
def pwmPin.SetAnalog (p : pwmPin) (value : Byte) (w : World) :
    Option Error × pwmPin × World :=
  let duty := utilMap value.val 0 255 0 p.period
  p.SetDuty duty w

/-- The method `SetPolarity` (lines 171-184). -/
def pwmPin.SetPolarity (p : pwmPin) (pol : Int) (w : World) :
    Option Error × pwmPin × World :=
  match p.init w with
  | (some err, p1, w1) => (some err, p1, w1)
  | (none, p1, w1) =>
    match WriteString p1.polarityf (.itoa pol) w1 with
    | (some err, w2) => (some err, p1, w2)
    | (none, w2) => (none, { p1 with polarity := pol }, w2)

/-- The method `Close` (lines 206-218). -/
def pwmPin.Close (p : pwmPin) (w : World) : Option Error × pwmPin × World :=
  match Unregister p.n w with
  | (some err, w1) => (some err, p, w1)
  | (none, w1) =>
    if !p.initialized then (none, p, w1) else
    let p1 := { p with initialized := false }
    match p1.reset false w1 with
    | (some err, w2) => (some err, p1, w2)
    | (none, w2) => (none, p1, w2)

/-- One call of the configuration interface of a channel. -/
inductive Call where
  | SetPeriod (ns : Int)
  | SetDuty (ns : Int)
  | SetAnalog (value : Byte)
  | SetPolarity (pol : Int)
  deriving DecidableEq, Repr

/-- Perform one call. -/
def pwmPin.perform (p : pwmPin) (c : Call) (w : World) : Option Error × pwmPin × World :=
  match c with
  | .SetPeriod ns => p.SetPeriod ns w
  | .SetDuty ns => p.SetDuty ns w
  | .SetAnalog value => p.SetAnalog value w
  | .SetPolarity pol => p.SetPolarity pol w

/-- Perform calls one after another, whether they fail or not. -/
def runCalls : List Call → pwmPin → World → pwmPin × World
  | [], p, w => (p, w)
  | c :: rest, p, w =>
    match p.perform c w with
    | (_, p1, w1) => runCalls rest p1 w1

/-- The payload last written to pseudo-file `f` in a history, if any. -/
def lastWritten (f : PwmFile) (events : List Event) : Option Payload :=
  events.reverse.findSome? fun e =>
    match e with
    | .wrote g text => if g = f then some text else none
    | _ => none

/-- The number last written to pseudo-file `f`: for `duty_cycle` and `period` the
channel's current duty and period, in the unit the hardware takes. -/
def lastNumber (f : PwmFile) (events : List Event) : Option Int :=
  (lastWritten f events).bind Payload.number?

/-- The state in which every initialized channel is: its four file fields hold the four
pseudo-files (`init` sets `initialized` only after opening all of them). -/
def pwmPin.WellFormed (p : pwmPin) : Prop :=
  p.initialized = true →
    p.enablef = some .enable ∧ p.dutyf = some .duty_cycle ∧
    p.periodf = some .period ∧ p.polarityf = some .polarity

instance (p : pwmPin) : Decidable p.WellFormed := by
  unfold pwmPin.WellFormed; infer_instance

/-- A world in which nothing fails from now on, with history `events`. -/
def calmWorld (events : List Event) : World := { faults := [], events := events }

/-- The pin after a successful `init`: the four file fields filled, the flag set, every
other field (the stored `period` among them) untouched. -/
def pwmPin.afterInit (p : pwmPin) : pwmPin :=
  { p with
    enablef := some .enable, dutyf := some .duty_cycle,
    periodf := some .period, polarityf := some .polarity,
    initialized := true }

/-- What `reset(enable)` writes when every write succeeds: polarity `normal`, the default
period and duty divided by 10, and the enable flag. -/
def resetEvents (enable : Bool) : List Event :=
  [.wrote .polarity (.lit "normal\n"),
   .wrote .period (.decLn (PWMDefaultPeriod.tdiv 10)),
   .wrote .duty_cycle (.decLn (PWMDefaultDuty.tdiv 10)),
   .wrote .enable (.lit (if enable then "1\n" else "0\n"))]

/-- What a successful `init` of an uninitialized pin does: four opens, then
`reset(true)`. -/
def initEvents : List Event :=
  [.opened .enable, .opened .duty_cycle, .opened .period, .opened .polarity]
    ++ resetEvents true

/-- The pin built by `newPWMPin` for pin 12 (PWM channel 0). -/
def pin12 : pwmPin :=
  { n := "P1_12", pwmChannel := 0, duty := 0, period := 0, polarity := 0,
    enablef := none, dutyf := none, periodf := none, polarityf := none,
    initialized := false }

/-- The invariant the specification gives for a channel, on the values last written to
the `duty_cycle` and `period` pseudo-files: `0 ≤ duty ≤ period` and
`PWMMinPulseWidth ≤ period ≤ PWMMaxPulseWidth`. -/
def specDutyPeriodInvariant (events : List Event) : Prop :=
  match lastNumber .duty_cycle events, lastNumber .period events with
  | some duty, some period =>
    0 ≤ duty ∧ duty ≤ period ∧ PWMMinPulseWidth ≤ period ∧ period ≤ PWMMaxPulseWidth
  | _, _ => False

instance (events : List Event) : Decidable (specDutyPeriodInvariant events) := by
  unfold specDutyPeriodInvariant; split <;> infer_instance

/-- The part of `specDutyPeriodInvariant` without `duty ≤ period`: `0 ≤ duty` and
`PWMMinPulseWidth ≤ period ≤ PWMMaxPulseWidth` on the values last written. -/
def dutyNonnegPeriodInRange (events : List Event) : Prop :=
  match lastNumber .duty_cycle events, lastNumber .period events with
  | some duty, some period =>
    0 ≤ duty ∧ PWMMinPulseWidth ≤ period ∧ period ≤ PWMMaxPulseWidth
  | _, _ => False

/-- The world and pin after one successful `SetPolarity(0)` on the fresh pin 12: an
initialized channel whose pseudo-files hold the defaults. -/
def initializedPin12 : pwmPin × World := runCalls [.SetPolarity 0] pin12 (calmWorld [])

/-! ## `host/rpi/onewirebus.go` -/

/-- The struct `w1Device` (lines 23-28).  `file` is nil or the path of the pseudo-file
opened into it.  The back-reference `bus` is implicit: a device lives in the store of
the bus that made it. -/
structure w1Device where
  file : Option String
  addr : String
  initialized : Bool
  deriving DecidableEq, Repr

/-- The struct `w1Bus` (lines 15-21).  `busMap` is a Go map from address to a pointer to
a `w1Device`; a pointer is the index of the device in the store. -/
structure w1Bus where
  l : Byte
  busMap : AList (fun _ : String => Nat)
  initialized : Bool

/-- A bus together with the objects it refers to: the store of allocated `w1Device`
values (a pointer is an index into it), the pseudo-files opened so far, and the scripted
outcomes of the coming `os.OpenFile` calls (`true`: the open fails). -/
structure BusState where
  bus : w1Bus
  store : List w1Device
  openedFiles : List String
  faults : List Bool

/-- The function `NewW1Bus` (lines 30-33), with nothing allocated and nothing opened. -/
def NewW1Bus (l : Byte) : BusState :=
  { bus := { l := l, busMap := ∅, initialized := false },
    store := [], openedFiles := [], faults := [] }

/-- The errors of the modelled part of `onewirebus.go`: a failed `os.OpenFile`. -/
inductive W1Error where
  | openFailed
  deriving DecidableEq, Repr

/-- The method `(*w1Bus).Open` (lines 158-169): the pointer returned and the error. -/
def w1Bus.Open (address : String) (st : BusState) : (Nat × Option W1Error) × BusState :=
  match st.bus.busMap.lookup address with
  | some d => ((d, none), st)
  | none =>
    let d := st.store.length
    ((d, none),
      { st with
        store := st.store ++ [{ file := none, addr := address, initialized := false }]
        bus := { st.bus with busMap := st.bus.busMap.insert address d } })

/-- The method `(*w1Device).init` (lines 52-67) on the device at pointer `d`; a pointer
that is not allocated is left alone.  This is the one place where a device pseudo-file
is opened; line 58 assigns `d.file` also when the open fails (to nil). -/
def w1Device.init (d : Nat) (st : BusState) : Option W1Error × BusState :=
  match st.store.get? d with
  | none => (none, st)
  | some dev =>
    if dev.initialized then (none, st) else
    let path := "/sys/bus/w1/devices/" ++ dev.addr ++ "/rw"
    match st.faults with
    | true :: rest =>
      (some .openFailed,
        { st with faults := rest, store := st.store.set d { dev with file := none } })
    | rest =>
      (none,
        { st with
          faults := rest.tail
          openedFiles := st.openedFiles ++ [path]
          store := st.store.set d { dev with file := some path, initialized := true } })

/-- A run of `Open` calls, one per address of the list in order, results dropped: the
state after them. -/
def openEach : List String → BusState → BusState
  | [], st => st
  | address :: rest, st => openEach rest (w1Bus.Open address st).2

end Rpi

end Embd

/-! # Theorems -/

namespace Embd

namespace DS18B20

set_option maxRecDepth 8192 in
theorem ds18b20_crc_data_length : ds18b20_crc_data.length = 256 := by decide

/-- Clearing the low `k` bits of a 16-bit pattern by AND with `2^16 - 2^k`. -/
theorem land_clear_low (u k : Nat) (hu : u < 2 ^ 16) (hk : k ≤ 16) :
    u &&& (2 ^ k * (2 ^ (16 - k) - 1)) = 2 ^ k * (u / 2 ^ k) := by
  apply Nat.eq_of_testBit_eq
  intro i
  rw [Nat.testBit_and, Nat.testBit_mul_pow_two, Nat.testBit_mul_pow_two,
    Nat.testBit_two_pow_sub_one, ← Nat.shiftRight_eq_div_pow, Nat.testBit_shiftRight]
  by_cases hik : i ≥ k
  · have e : k + (i - k) = i := by omega
    rw [e]
    by_cases hi : i < 16
    · have : i - k < 16 - k := by omega
      simp [hik, this]
    · have h2 : u < 2 ^ i :=
        Nat.lt_of_lt_of_le hu (Nat.pow_le_pow_right (by decide) (by omega))
      simp [Nat.testBit_lt_two_pow h2]
  · simp [hik]

theorem wrapInt16_range (x : Int) : -32768 ≤ wrapInt16 x ∧ wrapInt16 x ≤ 32767 := by
  unfold wrapInt16
  omega

theorem andNotInt16_seven (x : Int) (h1 : -32768 ≤ x) (h2 : x ≤ 32767) :
    andNotInt16 x 7 = specClearLow 3 x := by
  unfold andNotInt16 specClearLow
  have hu : (x % 65536).toNat < 2 ^ 16 := by omega
  have e : (65535 ^^^ 7 : Nat) = 2 ^ 3 * (2 ^ (16 - 3) - 1) := by decide
  rw [e, land_clear_low _ 3 hu (by decide)]
  unfold wrapInt16
  simp only [Int.ofNat_eq_coe]
  push_cast
  omega

theorem andNotInt16_three (x : Int) (h1 : -32768 ≤ x) (h2 : x ≤ 32767) :
    andNotInt16 x 3 = specClearLow 2 x := by
  unfold andNotInt16 specClearLow
  have hu : (x % 65536).toNat < 2 ^ 16 := by omega
  have e : (65535 ^^^ 3 : Nat) = 2 ^ 2 * (2 ^ (16 - 2) - 1) := by decide
  rw [e, land_clear_low _ 2 hu (by decide)]
  unfold wrapInt16
  simp only [Int.ofNat_eq_coe]
  push_cast
  omega

theorem andNotInt16_one (x : Int) (h1 : -32768 ≤ x) (h2 : x ≤ 32767) :
    andNotInt16 x 1 = specClearLow 1 x := by
  unfold andNotInt16 specClearLow
  have hu : (x % 65536).toNat < 2 ^ 16 := by omega
  have e : (65535 ^^^ 1 : Nat) = 2 ^ 1 * (2 ^ (16 - 1) - 1) := by decide
  rw [e, land_clear_low _ 1 hu (by decide)]
  unfold wrapInt16
  simp only [Int.ofNat_eq_coe]
  push_cast
  omega

/-- The two-step `int16` computation of line 94 is the one-step wrap of the
specification. -/
theorem raw_line94 (byte0 byte1 : Byte) :
    wrapInt16 (wrapInt16 (byte1.val * 256) + byte0.val) = specRaw16 byte0 byte1 := by
  unfold specRaw16 wrapInt16
  omega

/-- The function `ds18b20_crc` returns 0 on every input. -/
theorem ds18b20_crc_eq_zero (data : List Byte) : ds18b20_crc data = 0 := rfl

/-- A scratchpad that is decoded with an error leaves the sensor as it was. -/
theorem decodeScratchpad_error (sensor : Sensor) (res : List Byte) (e : Error)
    (h : (decodeScratchpad sensor res).1 = .returned (some e)) :
    (decodeScratchpad sensor res).2 = sensor := by
  unfold decodeScratchpad at h ⊢
  dsimp only at h ⊢
  by_cases hlen : res.length < 9
  · rw [if_pos hlen]
  · rw [if_neg hlen] at h ⊢
    by_cases hcrc : ds18b20_crc (List.take 8 res) ≠ res.getD 8 0
    · rw [if_pos hcrc]
    · rw [if_neg hcrc] at h
      exact absurd h (by intro h'; cases h')

/-- A scratchpad that is decoded without error has 9 bytes at least and sets `Raw` to
the masked little-endian value. -/
theorem decodeScratchpad_ok (sensor : Sensor) (res : List Byte)
    (h : (decodeScratchpad sensor res).1 = .returned none) :
    9 ≤ res.length ∧
    (decodeScratchpad sensor res).2.Raw =
      specClearLow (specClearedBits (res.getD 4 0))
        (specRaw16 (res.getD 0 0) (res.getD 1 0)) := by
  have hr := wrapInt16_range ((res.getD 1 0).val * 256 + (res.getD 0 0).val)
  unfold decodeScratchpad at h ⊢
  unfold specClearedBits
  dsimp only at h ⊢
  by_cases hlen : res.length < 9
  · rw [if_pos hlen] at h
    exact absurd h (by intro h'; cases h')
  · rw [if_neg hlen] at h ⊢
    by_cases hcrc : ds18b20_crc (List.take 8 res) ≠ res.getD 8 0
    · rw [if_pos hcrc] at h
      exact absurd h (by intro h'; cases h')
    · refine ⟨by omega, ?_⟩
      rw [if_neg hcrc, raw_line94]
      dsimp only
      split_ifs
      · exact andNotInt16_seven _ hr.1 hr.2
      · exact andNotInt16_three _ hr.1 hr.2
      · exact andNotInt16_one _ hr.1 hr.2
      · unfold specClearLow
        omega

/-- A call of `ReadTemperature` that ends either returned an error before touching the
sensor, or read a scratchpad without error and decoded it. -/
theorem ReadTemperature_result {σ : Type} (dev : W1Device σ) (fuel : Nat)
    (sensor sensor1 : Sensor) (s s1 : σ) (out : Outcome)
    (h : ReadTemperature dev fuel sensor s = some (out, sensor1, s1)) :
    (sensor1 = sensor ∧ ∃ e, out = .returned (some e)) ∨
    (∃ res s3, dev.ReadBytes 9 s3 = ((res, none), s1) ∧
      out = (decodeScratchpad sensor res).1 ∧ sensor1 = (decodeScratchpad sensor res).2) := by
  unfold ReadTemperature at h
  split at h
  · simp only [Option.some.injEq, Prod.mk.injEq] at h
    exact Or.inl ⟨h.2.1.symm, _, h.1.symm⟩
  · split at h
    · exact absurd h (by intro h'; cases h')
    · simp only [Option.some.injEq, Prod.mk.injEq] at h
      exact Or.inl ⟨h.2.1.symm, _, h.1.symm⟩
    · split at h
      · simp only [Option.some.injEq, Prod.mk.injEq] at h
        exact Or.inl ⟨h.2.1.symm, _, h.1.symm⟩
      · split at h
        · simp only [Option.some.injEq, Prod.mk.injEq] at h
          exact Or.inl ⟨h.2.1.symm, _, h.1.symm⟩
        · rename_i res s4 hrd
          simp only [Option.some.injEq, Prod.mk.injEq] at h
          obtain ⟨h1, h2, h3⟩ := h
          subst h3
          exact Or.inr ⟨res, _, hrd, h1.symm, h2.symm⟩

/-- More fuel does not change the result of a polling loop that ended. -/
theorem pollLoop_fuel_mono {σ : Type} (dev : W1Device σ) (fuel k : Nat) (s : σ)
    (r : (Byte × Option Error) × σ) (h : pollLoop dev fuel s = some r) :
    pollLoop dev (fuel + k) s = some r := by
  induction fuel generalizing s with
  | zero => cases h
  | succ n ih =>
    rw [Nat.add_right_comm]
    unfold pollLoop at h ⊢
    generalize dev.ReadByte s = x at h ⊢
    rcases x with ⟨⟨ret, err⟩, s1⟩
    dsimp only at h ⊢
    split_ifs at h ⊢ with hc
    · exact ih _ h
    · exact h

/-- More fuel does not change the result of a `ReadTemperature` that ended. -/
theorem ReadTemperature_fuel_mono {σ : Type} (dev : W1Device σ) (fuel k : Nat)
    (sensor : Sensor) (s : σ) (r : Outcome × Sensor × σ)
    (h : ReadTemperature dev fuel sensor s = some r) :
    ReadTemperature dev (fuel + k) sensor s = some r := by
  unfold ReadTemperature at h ⊢
  split
  · rename_i he
    rw [he] at h
    exact h
  · rename_i he
    rw [he] at h
    simp only at h
    cases hp : pollLoop dev fuel _ with
    | none => rw [hp] at h; cases h
    | some r1 =>
      rw [pollLoop_fuel_mono dev fuel k _ r1 hp]
      rw [hp] at h
      exact h

/-- C1 (code defect).  `ds18b20_crc` is not the table-driven CRC: it returns 0 on every
byte sequence, while the table-driven CRC of the one-byte sequence `[1]` is 94.  As a
consequence `ReadTemperature` compares byte 8 with 0: the reference scratchpad, whose
byte 8 is the table-driven CRC of its bytes 0..7, is rejected with the CRC error, and
the same scratchpad with byte 8 replaced by 0, whose byte 8 differs from that CRC, is
accepted and decoded. -/
theorem C1_ds18b20_crc_returns_zero :
    (∀ data : List Byte, ds18b20_crc data = 0) ∧
    specTableCrc [1] = 94 ∧
    ds18b20_crc [1] ≠ specTableCrc [1] ∧
    referencePad.getD 8 0 = specTableCrc (referencePad.take 8) ∧
    ReadTemperature (padDevice 0 referencePad) 1 ⟨0⟩ 0
      = some (.returned (some .crc), ⟨0⟩, 1) ∧
    tamperedPad.getD 8 0 ≠ specTableCrc (tamperedPad.take 8) ∧
    ReadTemperature (padDevice 0 tamperedPad) 1 ⟨0⟩ 0
      = some (.returned none, ⟨0x0550⟩, 1) := by
  refine ⟨ds18b20_crc_eq_zero, ?_, ?_, ?_, ?_, ?_, ?_⟩ <;> decide

/-- C2.  Whatever the device does: when `ReadTemperature` returns an error (from the
command write, from a read while polling, from the second command write, from the
scratchpad read, or the CRC error), the sensor's `Raw` is what it was before the call. -/
theorem C2_error_keeps_Raw {σ : Type} (dev : W1Device σ) (fuel : Nat)
    (sensor sensor1 : Sensor) (s s1 : σ) (e : Error)
    (h : ReadTemperature dev fuel sensor s = some (.returned (some e), sensor1, s1)) :
    sensor1.Raw = sensor.Raw := by
  rcases ReadTemperature_result dev fuel sensor sensor1 s s1 _ h with h1 | ⟨res, _, _, ho, hs⟩
  · rw [h1.1]
  · rw [hs, decodeScratchpad_error sensor res e ho.symm]

/-- C2 at concrete inputs: a scratchpad rejected with the CRC error after two busy polls,
and a device whose first write fails; `Raw` stays 7. -/
theorem C2_error_keeps_Raw_witness :
    ReadTemperature (padDevice 2 referencePad) 5 ⟨7⟩ 0
      = some (.returned (some .crc), ⟨7⟩, 3) ∧
    ReadTemperature (deadDevice 4) 5 ⟨7⟩ () = some (.returned (some (.device 4)), ⟨7⟩, ()) ∧
    (⟨7⟩ : Sensor).Raw = (⟨7⟩ : Sensor).Raw :=
  ⟨by decide, by decide,
    C2_error_keeps_Raw (padDevice 2 referencePad) 5 ⟨7⟩ ⟨7⟩ 0 3 .crc (by decide)⟩

/-- C3.  When `ReadTemperature` returns nil it has read a scratchpad `res` of at least 9
bytes, and `Raw` is the signed 16-bit little-endian value of bytes 0 and 1 with its low
3, 2, 1 or 0 bits cleared as `res[4] AND 0x60` is `0x00`, `0x20`, `0x40` or `0x60`.  In
particular the raw value `0b1111` becomes `0b1000` under config byte `0x00` and stays
`0b1111` under config byte `0x60`. -/
theorem C3_raw_after_success {σ : Type} (dev : W1Device σ) (fuel : Nat)
    (sensor sensor1 : Sensor) (s s1 : σ)
    (h : ReadTemperature dev fuel sensor s = some (.returned none, sensor1, s1)) :
    (∃ res s3, dev.ReadBytes 9 s3 = ((res, none), s1) ∧ 9 ≤ res.length ∧
      sensor1.Raw = specClearLow (specClearedBits (res.getD 4 0))
        (specRaw16 (res.getD 0 0) (res.getD 1 0))) ∧
    decodeScratchpad sensor [0b00001111, 0b00000000, 0, 0, 0x00, 0, 0, 0, 0]
      = (.returned none, ⟨0b1000⟩) ∧
    decodeScratchpad sensor [0b00001111, 0b00000000, 0, 0, 0x60, 0, 0, 0, 0]
      = (.returned none, ⟨0b1111⟩) := by
  refine ⟨?_, rfl, rfl⟩
  rcases ReadTemperature_result dev fuel sensor sensor1 s s1 _ h with h1 | ⟨res, s3, hrd, ho, hs⟩
  · obtain ⟨_, e, he⟩ := h1
    cases he
  · have hk := decodeScratchpad_ok sensor res ho.symm
    exact ⟨res, s3, hrd, hk.1, by rw [hs]; exact hk.2⟩

/-- C3 at concrete inputs: a negative reading (`0xFF0F`, config `0x00`) after two busy
polls is decoded to `-248`, which is `-241` with its low 3 bits cleared. -/
theorem C3_raw_after_success_witness :
    ReadTemperature (padDevice 2 [0x0F, 0xFF, 0, 0, 0x00, 0, 0, 0, 0]) 5 ⟨7⟩ 0
      = some (.returned none, ⟨-248⟩, 3) ∧
    specClearLow 3 (specRaw16 0x0F 0xFF) = -248 ∧
    ((∃ res s3, (padDevice 2 [0x0F, 0xFF, 0, 0, 0x00, 0, 0, 0, 0]).ReadBytes 9 s3
        = ((res, none), 3) ∧ 9 ≤ res.length ∧
      (⟨-248⟩ : Sensor).Raw = specClearLow (specClearedBits (res.getD 4 0))
        (specRaw16 (res.getD 0 0) (res.getD 1 0))) ∧
    decodeScratchpad ⟨7⟩ [0b00001111, 0b00000000, 0, 0, 0x00, 0, 0, 0, 0]
      = (.returned none, ⟨0b1000⟩) ∧
    decodeScratchpad ⟨7⟩ [0b00001111, 0b00000000, 0, 0, 0x60, 0, 0, 0, 0]
      = (.returned none, ⟨0b1111⟩)) :=
  ⟨by decide, by decide,
    C3_raw_after_success (padDevice 2 [0x0F, 0xFF, 0, 0, 0x00, 0, 0, 0, 0]) 5 ⟨7⟩ ⟨-248⟩ 0 3
      (by decide)⟩

end DS18B20

end Embd

namespace Embd

namespace Rpi

theorem pin12_eq : newPWMPin "P1_12" 12 = some pin12 := by decide

theorem init_of_initialized (p : pwmPin) (w : World) (h : p.initialized = true) :
    p.init w = (none, p, w) := by
  simp [pwmPin.init, h]

/-- In a world where nothing fails, `init` on an uninitialized pin opens the four files
and runs `reset(true)`. -/
theorem init_calm (p : pwmPin) (events : List Event) (h : p.initialized = false) :
    p.init (calmWorld events) = (none, p.afterInit, calmWorld (events ++ initEvents)) := by
  simp [pwmPin.init, h, openLoop, pairings, OpenFile, World.next, World.emit, calmWorld,
    pwmPin.setFile, pwmPin.reset, WriteString, pwmPin.afterInit, initEvents, resetEvents]

theorem afterInit_of_wellFormed (p : pwmPin) (hw : p.WellFormed) (h : p.initialized = true) :
    p.afterInit = p := by
  obtain ⟨h1, h2, h3, h4⟩ := hw h
  cases p
  simp_all [pwmPin.afterInit]

/-- In a world where nothing fails, `init` succeeds on every well-formed pin. -/
theorem init_calm_wf (p : pwmPin) (events : List Event) (hw : p.WellFormed) :
    p.init (calmWorld events)
      = (none, p.afterInit,
          calmWorld (events ++ if p.initialized then [] else initEvents)) := by
  cases h : p.initialized
  · simpa using init_calm p events h
  · rw [init_of_initialized p _ h, afterInit_of_wellFormed p hw h]
    simp

theorem OpenFile_some (name f : PwmFile) (w w1 : World)
    (h : OpenFile name w = (some f, w1)) : f = name := by
  unfold OpenFile at h
  split at h
  · cases h
  · simp only [Prod.mk.injEq, Option.some.injEq] at h
    exact h.1.symm

/-- The loop of `init` never touches the flag `initialized`. -/
theorem openLoop_initialized (l : List PwmFile) (p : pwmPin) (d : List PwmFile) (w : World) :
    (openLoop l p d w).2.1.initialized = p.initialized := by
  induction l generalizing p d w with
  | nil => rfl
  | cons name rest ih =>
    unfold openLoop
    split
    · rfl
    · rw [ih]
      cases name <;> rfl

/-- When the loop of `init` opens all four files, the four file fields hold them. -/
theorem openLoop_pairings_ok (p p1 : pwmPin) (d : List PwmFile) (w w1 : World)
    (h : openLoop pairings p [] w = (none, p1, d, w1)) :
    p1.enablef = some .enable ∧ p1.dutyf = some .duty_cycle ∧
    p1.periodf = some .period ∧ p1.polarityf = some .polarity := by
  unfold pairings at h
  simp only [openLoop] at h
  split at h
  · cases h
  · rename_i f1 _ h1
    split at h
    · cases h
    · rename_i f2 _ h2
      split at h
      · cases h
      · rename_i f3 _ h3
        split at h
        · cases h
        · rename_i f4 _ h4
          simp only [Prod.mk.injEq, true_and] at h
          rw [← h.1, OpenFile_some _ _ _ _ h1, OpenFile_some _ _ _ _ h2,
            OpenFile_some _ _ _ _ h3, OpenFile_some _ _ _ _ h4]
          simp [pwmPin.setFile]

/-- Well-formedness is kept by `init`, in every world. -/
theorem init_wellFormed (p : pwmPin) (w : World) (hw : p.WellFormed) :
    (p.init w).2.1.WellFormed := by
  unfold pwmPin.init
  split_ifs with hi
  · exact hw
  · have hflag := openLoop_initialized pairings p [] w
    split
    · rename_i he
      intro h
      rw [he] at hflag
      simp only at h hflag
      rw [hflag] at h
      exact absurd h hi
    · rename_i he
      have hfiles := openLoop_pairings_ok _ _ _ _ _ he
      split
      · intro h
        rw [he] at hflag
        simp only at h hflag
        rw [hflag] at h
        exact absurd h hi
      · intro _
        exact hfiles

/-- The pin made by `newPWMPin` is well-formed. -/
theorem newPWMPin_wellFormed (ID : String) (DigitalLogical : Int) (p : pwmPin)
    (h : newPWMPin ID DigitalLogical = some p) : p.WellFormed := by
  unfold newPWMPin at h
  split_ifs at h <;> simp only [Option.some.injEq] at h <;> subst h <;> intro hi <;> cases hi

/-- Well-formedness is kept by every call of the configuration interface, in every
world. -/
theorem perform_wellFormed (p : pwmPin) (c : Call) (w : World) (hw : p.WellFormed) :
    (p.perform c w).2.1.WellFormed := by
  have hi := init_wellFormed p w hw
  have key : ∀ ns, (p.SetDuty ns w).2.1.WellFormed := by
    intro ns
    unfold pwmPin.SetDuty
    dsimp only
    split
    · rename_i he; rw [he] at hi; exact hi
    · rename_i he; rw [he] at hi
      split_ifs
      · exact hi
      · exact hi
      · split <;> exact hi
  cases c with
  | SetPeriod ns =>
    unfold pwmPin.perform pwmPin.SetPeriod
    dsimp only
    split
    · rename_i he; rw [he] at hi; exact hi
    · rename_i he; rw [he] at hi
      split_ifs
      · exact hi
      · split
        · exact hi
        · exact hi
  | SetDuty ns => exact key ns
  | SetAnalog value => exact key _
  | SetPolarity pol =>
    unfold pwmPin.perform pwmPin.SetPolarity
    dsimp only
    split
    · rename_i he; rw [he] at hi; exact hi
    · rename_i he; rw [he] at hi
      split
      · exact hi
      · exact hi

/-- Well-formedness is kept by `Close`, in every world. -/
theorem Close_wellFormed (p : pwmPin) (w : World) (hw : p.WellFormed) :
    (p.Close w).2.1.WellFormed := by
  unfold pwmPin.Close
  split
  · exact hw
  · split_ifs
    · exact hw
    · dsimp only
      split <;> (intro h; cases h)

/-- Every state reached from a well-formed one by a sequence of calls is well-formed. -/
theorem runCalls_wellFormed (calls : List Call) (p : pwmPin) (w : World)
    (hw : p.WellFormed) : (runCalls calls p w).1.WellFormed := by
  induction calls generalizing p w with
  | nil => exact hw
  | cons c rest ih =>
    unfold runCalls
    have h := perform_wellFormed p c w hw
    split
    rename_i he
    rw [he] at h
    exact ih _ _ h

/-- Closed form of `SetPeriod` in a world where nothing fails. -/
theorem SetPeriod_calm (p : pwmPin) (hw : p.WellFormed) (ns : Int) (events : List Event) :
    p.SetPeriod ns (calmWorld events) =
      if ns.tdiv 10 < PWMMinPulseWidth ∨ ns.tdiv 10 > PWMMaxPulseWidth then
        (some .periodOutOfBounds, p.afterInit,
          calmWorld (events ++ if p.initialized then [] else initEvents))
      else
        (none, { p.afterInit with period := ns.tdiv 10 },
          calmWorld ((events ++ if p.initialized then [] else initEvents)
            ++ [.wrote .period (.itoa (ns.tdiv 10))])) := by
  unfold pwmPin.SetPeriod
  rw [init_calm_wf p events hw]
  dsimp only
  split_ifs <;>
    simp [WriteString, pwmPin.afterInit, World.next, World.emit, calmWorld]

/-- Closed form of `SetDuty` in a world where nothing fails. -/
theorem SetDuty_calm (p : pwmPin) (hw : p.WellFormed) (ns : Int) (events : List Event) :
    p.SetDuty ns (calmWorld events) =
      if ns.tdiv 10 > p.period then
        (some .dutyGreaterThanPeriod, p.afterInit,
          calmWorld (events ++ if p.initialized then [] else initEvents))
      else if ns.tdiv 10 < 0 then
        (some .dutyNegative, p.afterInit,
          calmWorld (events ++ if p.initialized then [] else initEvents))
      else
        (none, p.afterInit,
          calmWorld ((events ++ if p.initialized then [] else initEvents)
            ++ [.wrote .duty_cycle (.itoa (ns.tdiv 10))])) := by
  unfold pwmPin.SetDuty
  rw [init_calm_wf p events hw]
  dsimp only
  have hp : p.afterInit.period = p.period := rfl
  rw [hp]
  split_ifs <;>
    simp [WriteString, pwmPin.afterInit, World.next, World.emit, calmWorld]

/-- Closed form of `SetPolarity` in a world where nothing fails. -/
theorem SetPolarity_calm (p : pwmPin) (hw : p.WellFormed) (pol : Int) (events : List Event) :
    p.SetPolarity pol (calmWorld events) =
      (none, { p.afterInit with polarity := pol },
        calmWorld ((events ++ if p.initialized then [] else initEvents)
          ++ [.wrote .polarity (.itoa pol)])) := by
  unfold pwmPin.SetPolarity
  rw [init_calm_wf p events hw]
  simp [WriteString, pwmPin.afterInit, World.next, World.emit, calmWorld]

/-- C5.  With opens and writes succeeding, `SetPeriod(ns)` returns an error exactly when
`ns/10` (truncating division) is below `PWMMinPulseWidth = 1090` or above
`PWMMaxPulseWidth = 1000000000`; on an error the stored period is unchanged, on success
the stored period is `ns/10`. -/
theorem C5_SetPeriod_bounds (p : pwmPin) (hw : p.WellFormed) (ns : Int) (events : List Event) :
    ((p.SetPeriod ns (calmWorld events)).1 ≠ none ↔
      (ns.tdiv 10 < PWMMinPulseWidth ∨ ns.tdiv 10 > PWMMaxPulseWidth)) ∧
    ((p.SetPeriod ns (calmWorld events)).1 ≠ none →
      (p.SetPeriod ns (calmWorld events)).2.1.period = p.period) ∧
    ((p.SetPeriod ns (calmWorld events)).1 = none →
      (p.SetPeriod ns (calmWorld events)).2.1.period = ns.tdiv 10) ∧
    PWMMinPulseWidth = 1090 ∧ PWMMaxPulseWidth = 1000000000 := by
  rw [SetPeriod_calm p hw ns events]
  refine ⟨?_, ?_, ?_, rfl, rfl⟩ <;> split_ifs with hb <;> simp [hb, pwmPin.afterInit]

/-- C5 at concrete inputs, on the fresh pin 12: 10890 ns (scaled 1089) is refused and the
stored period stays 0; 10900 ns (scaled 1090) is accepted and stored. -/
theorem C5_SetPeriod_bounds_witness :
    pin12.WellFormed ∧
    pin12.SetPeriod 10890 (calmWorld []) =
      (some .periodOutOfBounds, pin12.afterInit, calmWorld initEvents) ∧
    (pin12.SetPeriod 10900 (calmWorld [])).1 = none ∧
    (((pin12.SetPeriod 10900 (calmWorld [])).1 ≠ none ↔
      ((10900 : Int).tdiv 10 < PWMMinPulseWidth ∨ (10900 : Int).tdiv 10 > PWMMaxPulseWidth)) ∧
    ((pin12.SetPeriod 10900 (calmWorld [])).1 ≠ none →
      (pin12.SetPeriod 10900 (calmWorld [])).2.1.period = pin12.period) ∧
    ((pin12.SetPeriod 10900 (calmWorld [])).1 = none →
      (pin12.SetPeriod 10900 (calmWorld [])).2.1.period = (10900 : Int).tdiv 10) ∧
    PWMMinPulseWidth = 1090 ∧ PWMMaxPulseWidth = 1000000000) :=
  ⟨by decide, by decide, by decide, C5_SetPeriod_bounds pin12 (by decide) 10900 []⟩

/-- Closed form of `SetAnalog` in a world where nothing fails, on an initialized channel
whose stored period is one that `SetPeriod` accepts: the value written to `duty_cycle`
is the mapped value divided by 10 once more. -/
theorem SetAnalog_calm (p : pwmPin) (hw : p.WellFormed) (hi : p.initialized = true)
    (h1 : PWMMinPulseWidth ≤ p.period) (value : Byte) (events : List Event) :
    p.SetAnalog value (calmWorld events) =
      (none, p, calmWorld (events ++
        [.wrote .duty_cycle (.itoa ((((value.val : Int) * p.period).tdiv 255).tdiv 10))])) := by
  have hq : ((((value.val : Int) * p.period).tdiv 255).tdiv 10) ≤ p.period ∧
      0 ≤ ((((value.val : Int) * p.period).tdiv 255).tdiv 10) := by
    have hP : (1090 : Int) ≤ p.period := h1
    have hv : (0 : Int) ≤ value.val := by omega
    have hv2 : (value.val : Int) ≤ 255 := by omega
    have hm0 : 0 ≤ (value.val : Int) * p.period := by positivity
    have hm1 : (value.val : Int) * p.period ≤ 255 * p.period := by nlinarith
    generalize (value.val : Int) * p.period = m at hm0 hm1
    rw [Int.tdiv_eq_ediv hm0 (by omega), Int.tdiv_eq_ediv (by omega) (by omega)]
    omega
  unfold pwmPin.SetAnalog utilMap
  simp only [sub_zero, add_zero]
  rw [SetDuty_calm p hw, afterInit_of_wellFormed p hw hi, hi]
  rw [if_neg (by omega), if_neg (by omega)]
  simp

theorem lastNumber_append_wrote (f g : PwmFile) (text : Payload) (events : List Event) :
    lastNumber f (events ++ [.wrote g text])
      = if g = f then text.number? else lastNumber f events := by
  unfold lastNumber lastWritten
  rw [List.reverse_append]
  by_cases h : g = f <;> simp [h]

/-- In a world where nothing fails, a call on an initialized well-formed channel keeps
the channel initialized, the world calm, and the part of the invariant that does not
compare duty with period. -/
theorem perform_keeps_range (p : pwmPin) (hw : p.WellFormed) (hi : p.initialized = true)
    (c : Call) (events : List Event) (hinv : dutyNonnegPeriodInRange events) :
    ∃ events1, (p.perform c (calmWorld events)).2.2 = calmWorld events1 ∧
      (p.perform c (calmWorld events)).2.1.initialized = true ∧
      dutyNonnegPeriodInRange events1 := by
  have hduty : ∀ ns, ∃ events1, (p.SetDuty ns (calmWorld events)).2.2 = calmWorld events1 ∧
      (p.SetDuty ns (calmWorld events)).2.1.initialized = true ∧
      dutyNonnegPeriodInRange events1 := by
    intro ns
    rw [SetDuty_calm p hw, hi]
    simp only [if_true, List.append_nil]
    split_ifs with h1 h2
    · exact ⟨events, rfl, rfl, hinv⟩
    · exact ⟨events, rfl, rfl, hinv⟩
    · refine ⟨_, rfl, rfl, ?_⟩
      unfold dutyNonnegPeriodInRange at hinv ⊢
      rw [lastNumber_append_wrote, lastNumber_append_wrote]
      simp only [if_true, Payload.number?]
      rw [if_neg (by decide)]
      split at hinv
      · rename_i d P hd hP
        rw [hP]
        exact ⟨by omega, hinv.2⟩
      · exact hinv.elim
  cases c with
  | SetPeriod ns =>
    show ∃ events1, (p.SetPeriod ns (calmWorld events)).2.2 = calmWorld events1 ∧
      (p.SetPeriod ns (calmWorld events)).2.1.initialized = true ∧
      dutyNonnegPeriodInRange events1
    rw [SetPeriod_calm p hw, hi]
    simp only [if_true, List.append_nil]
    split_ifs with h1
    · exact ⟨events, rfl, rfl, hinv⟩
    · refine ⟨_, rfl, rfl, ?_⟩
      unfold dutyNonnegPeriodInRange at hinv ⊢
      rw [lastNumber_append_wrote, lastNumber_append_wrote]
      simp only [if_true, Payload.number?]
      rw [if_neg (by decide)]
      split at hinv
      · rename_i d P hd hP
        rw [hd]
        exact ⟨hinv.1, by omega, by omega⟩
      · exact hinv.elim
  | SetDuty ns => exact hduty ns
  | SetAnalog value => exact hduty _
  | SetPolarity pol =>
    show ∃ events1, (p.SetPolarity pol (calmWorld events)).2.2 = calmWorld events1 ∧
      (p.SetPolarity pol (calmWorld events)).2.1.initialized = true ∧
      dutyNonnegPeriodInRange events1
    rw [SetPolarity_calm p hw, hi]
    simp only [if_true, List.append_nil]
    refine ⟨_, rfl, rfl, ?_⟩
    unfold dutyNonnegPeriodInRange at hinv ⊢
    rw [lastNumber_append_wrote, lastNumber_append_wrote]
    rw [if_neg (by decide), if_neg (by decide)]
    exact hinv

/-- What does hold after every sequence of calls on an initialized channel, writes
succeeding: the last duty written is not negative and the last period written is within
`[PWMMinPulseWidth, PWMMaxPulseWidth]`. -/
theorem runCalls_keeps_range (calls : List Call) (p : pwmPin) (hw : p.WellFormed)
    (hi : p.initialized = true) (events : List Event)
    (hinv : dutyNonnegPeriodInRange events) :
    dutyNonnegPeriodInRange (runCalls calls p (calmWorld events)).2.events := by
  induction calls generalizing p events with
  | nil => exact hinv
  | cons c rest ih =>
    obtain ⟨events1, h1, h2, h3⟩ := perform_keeps_range p hw hi c events hinv
    have hw1 := perform_wellFormed p c (calmWorld events) hw
    unfold runCalls
    split
    rename_i he
    rw [he] at h1 h2 hw1
    simp only at h1 h2 hw1
    rw [h1]
    exact ih _ hw1 h2 events1 h3

/-- C4 (code defect).  On the initialized channel `initializedPin12` (pseudo-files at
the defaults: duty 50000000, period 100000000) the single successful call
`SetPeriod(10900)` leaves duty 50000000 above period 1090; and after the successful
calls `SetPeriod(20000)`, `SetDuty(15000)`, `SetPeriod(10900)` the duty 1500 is above
the period 1090.  So `0 ≤ duty ≤ period` does not hold after every sequence of calls,
although it holds before them. -/
theorem C4_duty_can_exceed_period :
    initializedPin12.1.initialized = true ∧
    specDutyPeriodInvariant initializedPin12.2.events ∧
    (initializedPin12.1.SetPeriod 10900 initializedPin12.2).1 = none ∧
    lastNumber .duty_cycle
      (runCalls [.SetPeriod 10900] initializedPin12.1 initializedPin12.2).2.events
        = some 50000000 ∧
    lastNumber .period
      (runCalls [.SetPeriod 10900] initializedPin12.1 initializedPin12.2).2.events
        = some 1090 ∧
    ¬ specDutyPeriodInvariant
      (runCalls [.SetPeriod 10900] initializedPin12.1 initializedPin12.2).2.events ∧
    lastNumber .duty_cycle
      (runCalls [.SetPeriod 20000, .SetDuty 15000, .SetPeriod 10900]
        initializedPin12.1 initializedPin12.2).2.events = some 1500 ∧
    lastNumber .period
      (runCalls [.SetPeriod 20000, .SetDuty 15000, .SetPeriod 10900]
        initializedPin12.1 initializedPin12.2).2.events = some 1090 ∧
    ¬ specDutyPeriodInvariant
      (runCalls [.SetPeriod 20000, .SetDuty 15000, .SetPeriod 10900]
        initializedPin12.1 initializedPin12.2).2.events := by
  decide

/-- C6 (code defect).  On a channel whose period `P` was set by a successful `SetPeriod`,
`SetAnalog(v)` succeeds, but the duty it writes is `(v*P/255)/10`, not `v*P/255`:
`SetDuty` divides the mapped value by 10 although `P` is already in the scaled unit.
With `P = 1090` (set by `SetPeriod(10900)`), `SetAnalog(255)` maps to 1090 and writes
duty 109, not the period 1090. -/
theorem C6_SetAnalog_divides_by_ten_again :
    (∀ (p : pwmPin) (value : Byte) (events : List Event),
      p.WellFormed → p.initialized = true →
      PWMMinPulseWidth ≤ p.period → p.period ≤ PWMMaxPulseWidth →
      p.SetAnalog value (calmWorld events) =
        (none, p, calmWorld (events ++
          [.wrote .duty_cycle
            (.itoa ((utilMap value.val 0 255 0 p.period).tdiv 10))]))) ∧
    (pin12.SetPeriod 10900 (calmWorld [])).1 = none ∧
    (pin12.SetPeriod 10900 (calmWorld [])).2.1.period = 1090 ∧
    utilMap (255 : Byte).val 0 255 0 1090 = 1090 ∧
    ((pin12.SetPeriod 10900 (calmWorld [])).2.1.SetAnalog 255
      (pin12.SetPeriod 10900 (calmWorld [])).2.2).1 = none ∧
    lastNumber .duty_cycle
      ((pin12.SetPeriod 10900 (calmWorld [])).2.1.SetAnalog 255
        (pin12.SetPeriod 10900 (calmWorld [])).2.2).2.2.events = some 109 ∧
    lastNumber .period
      ((pin12.SetPeriod 10900 (calmWorld [])).2.1.SetAnalog 255
        (pin12.SetPeriod 10900 (calmWorld [])).2.2).2.2.events = some 1090 := by
  refine ⟨?_, by decide, by decide, by decide, by decide, by decide, by decide⟩
  intro p value events hw hi h1 _
  rw [SetAnalog_calm p hw hi h1 value events]
  simp [utilMap]

/-- On an initialized, well-formed channel `SetPeriod` adds to the history at most its
own write to `period`, in any world. -/
theorem SetPeriod_initialized_events (q : pwmPin) (hw : q.WellFormed)
    (hi : q.initialized = true) (ns : Int) (w : World) :
    (q.SetPeriod ns w).2.2.events = w.events ∨
    (q.SetPeriod ns w).2.2.events = w.events ++ [.wrote .period (.itoa (ns.tdiv 10))] := by
  obtain ⟨_, _, h3, _⟩ := hw hi
  unfold pwmPin.SetPeriod
  rw [init_of_initialized q w hi]
  dsimp only
  split_ifs
  · exact Or.inl rfl
  · rw [h3]
    rcases w with ⟨faults, events⟩
    rcases faults with _ | ⟨b, rest⟩
    · exact Or.inr rfl
    · cases b
      · exact Or.inr rfl
      · exact Or.inl rfl

/-- On an initialized, well-formed channel `SetDuty` adds to the history at most its own
write to `duty_cycle`, in any world. -/
theorem SetDuty_initialized_events (q : pwmPin) (hw : q.WellFormed)
    (hi : q.initialized = true) (ns : Int) (w : World) :
    (q.SetDuty ns w).2.2.events = w.events ∨
    (q.SetDuty ns w).2.2.events = w.events ++ [.wrote .duty_cycle (.itoa (ns.tdiv 10))] := by
  obtain ⟨_, h2, _, _⟩ := hw hi
  unfold pwmPin.SetDuty
  rw [init_of_initialized q w hi]
  dsimp only
  split_ifs
  · exact Or.inl rfl
  · exact Or.inl rfl
  · rw [h2]
    rcases w with ⟨faults, events⟩
    rcases faults with _ | ⟨b, rest⟩
    · exact Or.inr rfl
    · cases b
      · exact Or.inr rfl
      · exact Or.inl rfl

/-- On an initialized, well-formed channel `SetPolarity` adds to the history at most its
own write to `polarity`, in any world. -/
theorem SetPolarity_initialized_events (q : pwmPin) (hw : q.WellFormed)
    (hi : q.initialized = true) (pol : Int) (w : World) :
    (q.SetPolarity pol w).2.2.events = w.events ∨
    (q.SetPolarity pol w).2.2.events = w.events ++ [.wrote .polarity (.itoa pol)] := by
  obtain ⟨_, _, _, h4⟩ := hw hi
  unfold pwmPin.SetPolarity
  rw [init_of_initialized q w hi]
  dsimp only
  rw [h4]
  rcases w with ⟨faults, events⟩
  rcases faults with _ | ⟨b, rest⟩
  · exact Or.inr rfl
  · cases b
    · exact Or.inr rfl
    · exact Or.inl rfl

/-- C7, the claim as stated fails.  The first call on the fresh pin 12, a successful
`SetPeriod(20000000)` with every open and write succeeding, never writes `0` to the
`enable` pseudo-file: the only thing `enable` receives is `1` (output enabled). -/
theorem C7_first_call_enables_output :
    newPWMPin "P1_12" 12 = some pin12 ∧
    pin12.initialized = false ∧
    (pin12.SetPeriod 20000000 (calmWorld [])).1 = none ∧
    lastWritten .enable (pin12.SetPeriod 20000000 (calmWorld [])).2.2.events
      = some (.lit "1\n") ∧
    Event.wrote .enable (.lit "0\n") ∉ (pin12.SetPeriod 20000000 (calmWorld [])).2.2.events ∧
    Event.wrote .enable (.lit "0") ∉ (pin12.SetPeriod 20000000 (calmWorld [])).2.2.events := by
  decide

/-- C7, amended.  On a channel that is not initialized, with every open and write
succeeding, each of `SetPeriod`, `SetDuty` and `SetPolarity` first opens the four
pseudo-files and writes polarity `normal`, period `PWMDefaultPeriod/10 = 100000000`, duty
`PWMDefaultDuty/10 = 50000000` and `1` to `enable` (output enabled), then applies the
requested value if it is valid, and leaves the channel initialized.  A call on an
initialized channel adds at most its own single write: no defaults again. -/
theorem C7_first_call_writes_defaults (p : pwmPin) (hp : p.initialized = false)
    (events : List Event) (ns pol : Int) :
    (p.SetPeriod ns (calmWorld events)).2.2.events =
      events ++
        [.opened .enable, .opened .duty_cycle, .opened .period, .opened .polarity,
         .wrote .polarity (.lit "normal\n"),
         .wrote .period (.decLn (PWMDefaultPeriod.tdiv 10)),
         .wrote .duty_cycle (.decLn (PWMDefaultDuty.tdiv 10)),
         .wrote .enable (.lit "1\n")] ++
        (if PWMMinPulseWidth ≤ ns.tdiv 10 ∧ ns.tdiv 10 ≤ PWMMaxPulseWidth then
          [.wrote .period (.itoa (ns.tdiv 10))] else []) ∧
    (p.SetDuty ns (calmWorld events)).2.2.events =
      events ++
        [.opened .enable, .opened .duty_cycle, .opened .period, .opened .polarity,
         .wrote .polarity (.lit "normal\n"),
         .wrote .period (.decLn (PWMDefaultPeriod.tdiv 10)),
         .wrote .duty_cycle (.decLn (PWMDefaultDuty.tdiv 10)),
         .wrote .enable (.lit "1\n")] ++
        (if 0 ≤ ns.tdiv 10 ∧ ns.tdiv 10 ≤ p.period then
          [.wrote .duty_cycle (.itoa (ns.tdiv 10))] else []) ∧
    (p.SetPolarity pol (calmWorld events)).2.2.events =
      events ++
        [.opened .enable, .opened .duty_cycle, .opened .period, .opened .polarity,
         .wrote .polarity (.lit "normal\n"),
         .wrote .period (.decLn (PWMDefaultPeriod.tdiv 10)),
         .wrote .duty_cycle (.decLn (PWMDefaultDuty.tdiv 10)),
         .wrote .enable (.lit "1\n")] ++
        [.wrote .polarity (.itoa pol)] ∧
    (p.SetPeriod ns (calmWorld events)).2.1.initialized = true ∧
    (p.SetDuty ns (calmWorld events)).2.1.initialized = true ∧
    (p.SetPolarity pol (calmWorld events)).2.1.initialized = true ∧
    (∀ (q : pwmPin) (w : World), q.WellFormed → q.initialized = true →
      ((q.SetPeriod ns w).2.2.events = w.events ∨
        (q.SetPeriod ns w).2.2.events = w.events ++ [.wrote .period (.itoa (ns.tdiv 10))]) ∧
      ((q.SetDuty ns w).2.2.events = w.events ∨
        (q.SetDuty ns w).2.2.events
          = w.events ++ [.wrote .duty_cycle (.itoa (ns.tdiv 10))]) ∧
      ((q.SetPolarity pol w).2.2.events = w.events ∨
        (q.SetPolarity pol w).2.2.events = w.events ++ [.wrote .polarity (.itoa pol)])) ∧
    PWMDefaultPeriod.tdiv 10 = 100000000 ∧ PWMDefaultDuty.tdiv 10 = 50000000 := by
  have hw : p.WellFormed := by
    intro h
    rw [hp] at h
    cases h
  refine ⟨?_, ?_, ?_, ?_, ?_, ?_, ?_, by decide, by decide⟩
  · rw [SetPeriod_calm p hw, hp]
    by_cases hb : PWMMinPulseWidth ≤ ns.tdiv 10 ∧ ns.tdiv 10 ≤ PWMMaxPulseWidth
    · have hn : ¬ (ns.tdiv 10 < PWMMinPulseWidth ∨ ns.tdiv 10 > PWMMaxPulseWidth) := by omega
      rw [if_neg hn, if_pos hb]
      simp [calmWorld, initEvents, resetEvents]
    · have hn : ns.tdiv 10 < PWMMinPulseWidth ∨ ns.tdiv 10 > PWMMaxPulseWidth := by omega
      rw [if_pos hn, if_neg hb]
      simp [calmWorld, initEvents, resetEvents]
  · rw [SetDuty_calm p hw, hp]
    by_cases hb : 0 ≤ ns.tdiv 10 ∧ ns.tdiv 10 ≤ p.period
    · rw [if_neg (by omega), if_neg (by omega), if_pos hb]
      simp [calmWorld, initEvents, resetEvents]
    · rw [if_neg hb]
      by_cases hg : ns.tdiv 10 > p.period
      · rw [if_pos hg]
        simp [calmWorld, initEvents, resetEvents]
      · rw [if_neg hg, if_pos (by omega)]
        simp [calmWorld, initEvents, resetEvents]
  · rw [SetPolarity_calm p hw, hp]
    simp [calmWorld, initEvents, resetEvents]
  · rw [SetPeriod_calm p hw]
    split_ifs <;> rfl
  · rw [SetDuty_calm p hw]
    split_ifs <;> rfl
  · rw [SetPolarity_calm p hw]
    rfl
  · intro q w hq hi
    exact ⟨SetPeriod_initialized_events q hq hi ns w, SetDuty_initialized_events q hq hi ns w,
      SetPolarity_initialized_events q hq hi pol w⟩

/-- C7 (amended) at a concrete input: the fresh pin 12, empty history,
`ns = 20000000`, `pol = 1`; the first `SetPeriod` ends with the period write
`2000000` after the defaults. -/
theorem C7_first_call_writes_defaults_witness :
    pin12.initialized = false ∧
    (pin12.SetPeriod 20000000 (calmWorld [])).2.2.events =
      [.opened .enable, .opened .duty_cycle, .opened .period, .opened .polarity,
       .wrote .polarity (.lit "normal\n"), .wrote .period (.decLn 100000000),
       .wrote .duty_cycle (.decLn 50000000), .wrote .enable (.lit "1\n"),
       .wrote .period (.itoa 2000000)] ∧
    (pin12.SetPolarity 1 (calmWorld [])).2.1.initialized = true :=
  ⟨by decide, by decide,
    (C7_first_call_writes_defaults pin12 (by decide) [] 20000000 1).2.2.2.2.2.1⟩

/-- C8, the claim as stated fails.  On the initialized channel `initializedPin12`, when
unregistration fails `Close` returns that error, writes nothing (the history is
unchanged) and leaves the channel initialized: output is not disabled and no default is
restored. -/
theorem C8_Close_stops_on_unregister_failure :
    initializedPin12.1.initialized = true ∧
    initializedPin12.1.Close { faults := [true], events := initializedPin12.2.events } =
      (some .unregisterFailed, initializedPin12.1,
        { faults := [], events := initializedPin12.2.events }) ∧
    lastWritten .enable initializedPin12.2.events = some (.lit "1\n") := by
  decide

/-- C8, amended.  Whatever the channel, when unregistration fails `Close` returns that
error and does nothing else.  When unregistration succeeds on an initialized channel
(writes succeeding), `Close` clears the flag and writes polarity `normal`, period
`PWMDefaultPeriod/10`, duty `PWMDefaultDuty/10` and `0` to `enable`.  On a channel that is
not initialized `Close` writes nothing and returns exactly the result of the
unregistration. -/
theorem C8_Close_restores_after_unregister (p : pwmPin) (hw : p.WellFormed)
    (rest : List Bool) (events : List Event) (w : World) :
    p.Close { faults := true :: rest, events := events } =
      (some .unregisterFailed, p, { faults := rest, events := events }) ∧
    (p.initialized = true →
      p.Close (calmWorld events) =
        (none, { p with initialized := false },
          calmWorld (events ++
            [.unregistered p.n,
             .wrote .polarity (.lit "normal\n"),
             .wrote .period (.decLn (PWMDefaultPeriod.tdiv 10)),
             .wrote .duty_cycle (.decLn (PWMDefaultDuty.tdiv 10)),
             .wrote .enable (.lit "0\n")]))) ∧
    (p.initialized = false →
      p.Close w = ((Unregister p.n w).1, p, (Unregister p.n w).2) ∧
      ((p.Close w).2.2.events = w.events ∨
        (p.Close w).2.2.events = w.events ++ [.unregistered p.n])) ∧
    PWMDefaultPeriod.tdiv 10 = 100000000 ∧ PWMDefaultDuty.tdiv 10 = 50000000 := by
  refine ⟨?_, ?_, ?_, by decide, by decide⟩
  · simp [pwmPin.Close, Unregister, World.next]
  · intro hi
    obtain ⟨h1, h2, h3, h4⟩ := hw hi
    simp [pwmPin.Close, Unregister, World.next, World.emit, calmWorld, hi, pwmPin.reset,
      WriteString, h1, h2, h3, h4]
  · intro hi
    rcases w with ⟨faults, ev⟩
    rcases faults with _ | ⟨b, tl⟩
    · simp [pwmPin.Close, Unregister, World.next, World.emit, hi]
    · cases b <;> simp [pwmPin.Close, Unregister, World.next, World.emit, hi]

/-- C8 (amended) at concrete inputs: closing `initializedPin12` with unregistration
succeeding ends the history with the four default writes, `enable` receiving `0`; and
closing the fresh pin 12 writes nothing. -/
theorem C8_Close_restores_after_unregister_witness :
    initializedPin12.1.WellFormed ∧
    lastWritten .enable (initializedPin12.1.Close initializedPin12.2).2.2.events
      = some (.lit "0\n") ∧
    pin12.Close (calmWorld []) = (none, pin12, calmWorld [.unregistered "P1_12"]) ∧
    initializedPin12.1.Close (calmWorld []) =
      (none, { initializedPin12.1 with initialized := false },
        calmWorld ([] ++
          [.unregistered initializedPin12.1.n,
           .wrote .polarity (.lit "normal\n"),
           .wrote .period (.decLn (PWMDefaultPeriod.tdiv 10)),
           .wrote .duty_cycle (.decLn (PWMDefaultDuty.tdiv 10)),
           .wrote .enable (.lit "0\n")])) :=
  ⟨by decide, by decide, by decide,
    (C8_Close_restores_after_unregister initializedPin12.1 (by decide) [] []
      (calmWorld [])).2.1 (by decide)⟩

/-- C10.  Let the stored period of a channel be 0 (no `SetPeriod` has succeeded).
Initialization writes `PWMDefaultPeriod/10` to the `period` pseudo-file and leaves the
stored period at 0.  Then `SetDuty(ns)` with `ns ≥ 10` returns the "greater than the
period" error, adding nothing to the history but the initialization (if it was still
due); on an initialized channel it does so in every world, touching nothing.  With opens
and writes succeeding, `SetDuty(ns)` is accepted exactly when `ns/10 = 0`. -/
theorem C10_SetDuty_with_stored_period_zero (p : pwmPin) (hw : p.WellFormed)
    (hper : p.period = 0) (ns : Int) (events : List Event) (w : World) :
    (p.initialized = false →
      (p.init (calmWorld events)).1 = none ∧
      (p.init (calmWorld events)).2.1.period = 0 ∧
      lastNumber .period (p.init (calmWorld events)).2.2.events
        = some (PWMDefaultPeriod.tdiv 10)) ∧
    (10 ≤ ns →
      p.SetDuty ns (calmWorld events) =
        (some .dutyGreaterThanPeriod, p.afterInit,
          calmWorld (events ++ if p.initialized then [] else initEvents))) ∧
    (10 ≤ ns → p.initialized = true →
      p.SetDuty ns w = (some .dutyGreaterThanPeriod, p, w)) ∧
    ((p.SetDuty ns (calmWorld events)).1 = none ↔ ns.tdiv 10 = 0) ∧
    lastNumber .duty_cycle initEvents = some (PWMDefaultDuty.tdiv 10) := by
  have hpos : 10 ≤ ns → ns.tdiv 10 > p.period := by
    intro h
    rw [hper, Int.tdiv_eq_ediv (by omega) (by omega)]
    omega
  refine ⟨?_, ?_, ?_, ?_, by decide⟩
  · intro hi
    rw [init_calm p events hi]
    refine ⟨rfl, hper, ?_⟩
    simp [calmWorld, lastNumber, lastWritten, initEvents, resetEvents, Payload.number?]
  · intro h
    rw [SetDuty_calm p hw, if_pos (hpos h)]
  · intro h hi
    unfold pwmPin.SetDuty
    rw [init_of_initialized p w hi]
    dsimp only
    rw [if_pos (hpos h)]
  · rw [SetDuty_calm p hw, hper]
    split_ifs with h1 h2 <;> simp <;> omega

/-- C10 at concrete inputs, on the fresh pin 12: `SetDuty(10)` is refused, `SetDuty(9)`
and `SetDuty(-9)` are accepted and write 0, `SetDuty(-10)` is refused as negative. -/
theorem C10_SetDuty_with_stored_period_zero_witness :
    (pin12.SetDuty 9 (calmWorld [])).1 = none ∧
    (pin12.SetDuty (-9) (calmWorld [])).1 = none ∧
    lastNumber .duty_cycle (pin12.SetDuty (-9) (calmWorld [])).2.2.events = some 0 ∧
    (pin12.SetDuty (-10) (calmWorld [])).1 = some .dutyNegative ∧
    pin12.SetDuty 10 (calmWorld []) =
      (some .dutyGreaterThanPeriod, pin12.afterInit,
        calmWorld ([] ++ if pin12.initialized then [] else initEvents)) ∧
    lastNumber .duty_cycle (pin12.SetDuty 10 (calmWorld [])).2.2.events = some 50000000 :=
  ⟨by decide, by decide, by decide, by decide,
    (C10_SetDuty_with_stored_period_zero pin12 (by decide) rfl 10 [] (calmWorld [])).2.1
      (by decide),
    by decide⟩

/-- The one place that opens a device pseudo-file is `(*w1Device).init`: on the device
that `Open` has just made on a new bus it opens the file of that address. -/
theorem w1Device_init_opens :
    (w1Device.init (w1Bus.Open "28-0001" (NewW1Bus 1)).1.1
      (w1Bus.Open "28-0001" (NewW1Bus 1)).2).2.openedFiles
        = ["/sys/bus/w1/devices/28-0001/rw"] := by
  decide

/-- The first branch of `Open`: an address already in the registry. -/
theorem Open_registered (st : BusState) (a : String) (d : Nat)
    (h : st.bus.busMap.lookup a = some d) : w1Bus.Open a st = ((d, none), st) := by
  unfold w1Bus.Open
  simp [h]

/-- After `Open(a)` the registry maps `a` to the returned device. -/
theorem Open_lookup_self (st : BusState) (a : String) :
    (w1Bus.Open a st).2.bus.busMap.lookup a = some (w1Bus.Open a st).1.1 := by
  unfold w1Bus.Open
  cases h : st.bus.busMap.lookup a with
  | some d => simpa using h
  | none => simp

/-- The frame of `Open(a)`: the registration of every other address is as before. -/
theorem Open_lookup_other (st : BusState) (a b : String) (hb : b ≠ a) :
    (w1Bus.Open a st).2.bus.busMap.lookup b = st.bus.busMap.lookup b := by
  unfold w1Bus.Open
  cases h : st.bus.busMap.lookup a with
  | some d => rfl
  | none => exact AList.lookup_insert_ne hb

/-- The method `Open` never drops or replaces a registration. -/
theorem Open_keeps_registration (st : BusState) (a b : String) (d : Nat)
    (h : st.bus.busMap.lookup b = some d) :
    (w1Bus.Open a st).2.bus.busMap.lookup b = some d := by
  by_cases hb : b = a
  · subst hb
    rw [Open_registered st b d h]
    exact h
  · rw [Open_lookup_other st a b hb]
    exact h

/-- No run of `Open` calls drops or replaces a registration. -/
theorem openEach_keeps_registration (others : List String) (st : BusState) (b : String)
    (d : Nat) (h : st.bus.busMap.lookup b = some d) :
    (openEach others st).bus.busMap.lookup b = some d := by
  induction others generalizing st with
  | nil => exact h
  | cons address rest ih =>
    unfold openEach
    exact ih _ (Open_keeps_registration st address b d h)

/-- The method `Open` keeps every device allocated before it as it was. -/
theorem Open_store_prefix (st : BusState) (a : String) :
    (w1Bus.Open a st).2.store.take st.store.length = st.store := by
  unfold w1Bus.Open
  cases st.bus.busMap.lookup a <;> simp

/-- C9.  `Open(a)` never returns an error.  A second `Open(a)` returns the same device
pointer as the first and changes nothing (registry, store, opened files); so does a
later `Open(a)` after any run of `Open` calls on any addresses in between.  After
`Open(a)` the registry maps `a` to the returned device, the registration of every other
address is as before, no registration that existed is dropped or replaced, and no
address has two devices.  `Open` opens no pseudo-file and leaves the devices allocated
before untouched; when `a` was not registered the returned device is a newly allocated
one (its pointer is not one of the store before) with address `a`, not initialized, its
file nil; when `a` was registered the state is unchanged. -/
theorem C9_Open_idempotent (st : BusState) (a : String) :
    (w1Bus.Open a st).1.2 = none ∧
    w1Bus.Open a (w1Bus.Open a st).2 = (((w1Bus.Open a st).1.1, none), (w1Bus.Open a st).2) ∧
    (∀ others : List String,
      w1Bus.Open a (openEach others (w1Bus.Open a st).2)
        = (((w1Bus.Open a st).1.1, none), openEach others (w1Bus.Open a st).2)) ∧
    (w1Bus.Open a st).2.bus.busMap.lookup a = some (w1Bus.Open a st).1.1 ∧
    (∀ b : String, b ≠ a →
      (w1Bus.Open a st).2.bus.busMap.lookup b = st.bus.busMap.lookup b) ∧
    (∀ (b : String) (d : Nat), st.bus.busMap.lookup b = some d →
      (w1Bus.Open a st).2.bus.busMap.lookup b = some d) ∧
    (∀ (b : String) (d1 d2 : Nat),
      (⟨b, d1⟩ : Sigma fun _ : String => Nat) ∈ (w1Bus.Open a st).2.bus.busMap.entries →
      (⟨b, d2⟩ : Sigma fun _ : String => Nat) ∈ (w1Bus.Open a st).2.bus.busMap.entries →
      d1 = d2) ∧
    (w1Bus.Open a st).2.openedFiles = st.openedFiles ∧
    (w1Bus.Open a st).2.store.take st.store.length = st.store ∧
    (st.bus.busMap.lookup a = none →
      (w1Bus.Open a st).1.1 = st.store.length ∧
      (w1Bus.Open a st).2.store.length = st.store.length + 1 ∧
      (w1Bus.Open a st).2.store.get? (w1Bus.Open a st).1.1
        = some { file := none, addr := a, initialized := false }) ∧
    (∀ d, st.bus.busMap.lookup a = some d → w1Bus.Open a st = ((d, none), st)) := by
  have hself := Open_lookup_self st a
  refine ⟨?_, ?_, ?_, hself, ?_, ?_, ?_, ?_, Open_store_prefix st a, ?_, ?_⟩
  · unfold w1Bus.Open
    cases st.bus.busMap.lookup a <;> rfl
  · exact Open_registered _ a _ hself
  · intro others
    exact Open_registered _ a _ (openEach_keeps_registration others _ a _ hself)
  · intro b hb
    exact Open_lookup_other st a b hb
  · intro b d h
    exact Open_keeps_registration st a b d h
  · intro b d1 d2 h1 h2
    exact (w1Bus.Open a st).2.bus.busMap.nodupKeys.eq_of_mk_mem h1 h2
  · unfold w1Bus.Open
    cases st.bus.busMap.lookup a <;> rfl
  · intro h
    unfold w1Bus.Open
    simp [h]
  · intro d h
    exact Open_registered st a d h

/-- C9 at a concrete input: on a new bus, `Open("28-0001")`, `Open("28-0002")`,
`Open("28-0001")` hand out pointers 0, 1 and 0 again, and the store holds two devices. -/
theorem C9_Open_idempotent_witness :
    (w1Bus.Open "28-0001" (NewW1Bus 1)).1 = (0, none) ∧
    (w1Bus.Open "28-0002" (w1Bus.Open "28-0001" (NewW1Bus 1)).2).1 = (1, none) ∧
    (openEach ["28-0002"] (w1Bus.Open "28-0001" (NewW1Bus 1)).2).store =
      [{ file := none, addr := "28-0001", initialized := false },
       { file := none, addr := "28-0002", initialized := false }] ∧
    w1Bus.Open "28-0001" (openEach ["28-0002"] (w1Bus.Open "28-0001" (NewW1Bus 1)).2)
      = (((w1Bus.Open "28-0001" (NewW1Bus 1)).1.1, none),
          openEach ["28-0002"] (w1Bus.Open "28-0001" (NewW1Bus 1)).2) :=
  ⟨by decide, by decide, by decide,
    (C9_Open_idempotent (NewW1Bus 1) "28-0001").2.2.1 ["28-0002"]⟩

end Rpi

end Embd
